import Mathlib

/-!
Verification development for the MemberSim deterministic generation framework
(`membersim.generation`): seed derivation (`seed_manager.py`), distribution
primitives (`distributions.py`) and the cohort generator (`cohort.py`),
shallowly embedded in Lean.  Byte strings are lists of naturals < 256, Python
ints are `Int`/`Nat`, Python floats are modelled as rationals, and the
pseudo-random source `random.Random` is modelled by an explicit operation
counter together with an arbitrary value model (`RandModel`), so that every
stated property holds for every possible stream of raw draws.
-/

namespace MemberSim

/-! ## SHA-256 (`hashlib.sha256`), over byte lists

A direct implementation of FIPS 180-4 SHA-256 on `List Nat` (bytes), used by
`SeedManager.get_seed`.  Word arithmetic is `Nat` reduced mod `2 ^ 32`. -/

/-- Right rotation of a 32-bit word. -/
def rotr32 (n x : Nat) : Nat :=
  ((x >>> n) ||| (x <<< (32 - n))) % (2 ^ 32)

/-- Big sigma-0 round function. -/
def bSig0 (x : Nat) : Nat := (rotr32 2 x) ^^^ (rotr32 13 x) ^^^ (rotr32 22 x)

/-- Big sigma-1 round function. -/
def bSig1 (x : Nat) : Nat := (rotr32 6 x) ^^^ (rotr32 11 x) ^^^ (rotr32 25 x)

/-- Small sigma-0 schedule function. -/
def sSig0 (x : Nat) : Nat := (rotr32 7 x) ^^^ (rotr32 18 x) ^^^ (x >>> 3)

/-- Small sigma-1 schedule function. -/
def sSig1 (x : Nat) : Nat := (rotr32 17 x) ^^^ (rotr32 19 x) ^^^ (x >>> 10)

/-- The 64 SHA-256 round constants. -/
def shaK : List Nat :=
  [1116352408, 1899447441, 3049323471, 3921009573, 961987163,
   1508970993, 2453635748, 2870763221, 3624381080, 310598401,
   607225278, 1426881987, 1925078388, 2162078206, 2614888103,
   3248222580, 3835390401, 4022224774, 264347078, 604807628,
   770255983, 1249150122, 1555081692, 1996064986, 2554220882,
   2821834349, 2952996808, 3210313671, 3336571891, 3584528711,
   113926993, 338241895, 666307205, 773529912, 1294757372,
   1396182291, 1695183700, 1986661051, 2177026350, 2456956037,
   2730485921, 2820302411, 3259730800, 3345764771, 3516065817,
   3600352804, 4094571909, 275423344, 430227734, 506948616,
   659060556, 883997877, 958139571, 1322822218, 1537002063,
   1747873779, 1955562222, 2024104815, 2227730452, 2361852424,
   2428436474, 2756734187, 3204031479, 3329325298]

/-- The initial SHA-256 hash state. -/
def shaH0 : List Nat :=
  [1779033703, 3144134277, 1013904242,
   2773480762, 1359893119, 2600822924,
   528734635, 1541459225]

/-- Big-endian bytes of `x`, `n` bytes wide. -/
def bytesBE (n x : Nat) : List Nat :=
  match n with
  | 0 => []
  | n + 1 => bytesBE n (x / 256) ++ [x % 256]

/-- Group a byte list into big-endian 32-bit words. -/
def toWords : List Nat → List Nat
  | b0 :: b1 :: b2 :: b3 :: rest => (((b0 * 256 + b1) * 256 + b2) * 256 + b3) :: toWords rest
  | _ => []

/-- SHA-256 padding: a `0x80` byte, zeros to 56 mod 64, then the bit length
as 8 big-endian bytes. -/
def shaPad (msg : List Nat) : List Nat :=
  let len := msg.length
  let z := (119 - len % 64) % 64
  msg ++ [0x80] ++ List.replicate z 0 ++ bytesBE 8 (len * 8)

/-- Split a byte list into 64-byte chunks (fuel-structured so that it
reduces definitionally; `l.length` steps always suffice). -/
def chunks64Aux : Nat → List Nat → List (List Nat)
  | 0, _ => []
  | _, [] => []
  | fuel + 1, b :: l => ((b :: l).take 64) :: chunks64Aux fuel ((b :: l).drop 64)

/-- Split a byte list into 64-byte chunks. -/
def chunks64 (l : List Nat) : List (List Nat) := chunks64Aux l.length l

/-- Extend a 16-word block to the 64-word message schedule, one step. -/
def stepW (a : Array Nat) : Array Nat :=
  let i := a.size
  let w := (a.getD (i - 16) 0 + sSig0 (a.getD (i - 15) 0)
            + a.getD (i - 7) 0 + sSig1 (a.getD (i - 2) 0)) % (2 ^ 32)
  a.push w

/-- The full 64-word message schedule of one block. -/
def fullW (block : List Nat) : Array Nat :=
  (List.range 48).foldl (fun a _ => stepW a) (toWords block).toArray

/-- One SHA-256 compression round on the 8-word working state. -/
def compressStep (w k : Nat) : List Nat → List Nat
  | [a, b, c, d, e, f, g, h] =>
      let t1 := (h + bSig1 e + ((e &&& f) ^^^ ((e ^^^ 0xffffffff) &&& g)) + k + w) % (2 ^ 32)
      let t2 := (bSig0 a + ((a &&& b) ^^^ (a &&& c) ^^^ (b &&& c))) % (2 ^ 32)
      [(t1 + t2) % (2 ^ 32), a, b, c, (d + t1) % (2 ^ 32), e, f, g]
  | st => st

/-- Process one 64-byte block into the hash state. -/
def compressBlock (hs : List Nat) (block : List Nat) : List Nat :=
  let w := fullW block
  let st := (List.range 64).foldl
    (fun st i => compressStep (w.getD i 0) (shaK.getD i 0) st) hs
  List.zipWith (fun x y => (x + y) % (2 ^ 32)) hs st

/-- SHA-256 digest (32 bytes) of a byte list. -/
def sha256 (msg : List Nat) : List Nat :=
  let hs := (chunks64 (shaPad msg)).foldl compressBlock shaH0
  (hs.map (bytesBE 4)).flatten

/-! ## UTF-8 encoding (`str.encode()`) -/

/-- UTF-8 encoding of a single code point. -/
def utf8Encode (c : Nat) : List Nat :=
  if c < 0x80 then [c]
  else if c < 0x800 then
    [0xc0 ||| (c >>> 6), 0x80 ||| (c &&& 0x3f)]
  else if c < 0x10000 then
    [0xe0 ||| (c >>> 12), 0x80 ||| ((c >>> 6) &&& 0x3f), 0x80 ||| (c &&& 0x3f)]
  else
    [0xf0 ||| (c >>> 18), 0x80 ||| ((c >>> 12) &&& 0x3f),
     0x80 ||| ((c >>> 6) &&& 0x3f), 0x80 ||| (c &&& 0x3f)]

/-- The UTF-8 bytes of a string, as `str.encode()` produces them. -/
def strBytes (s : String) : List Nat :=
  s.data.foldr (fun c acc => utf8Encode c.toNat ++ acc) []

/-- `int.from_bytes(bs, byteorder="big")`. -/
def fromBytesBE (bs : List Nat) : Nat :=
  bs.foldl (fun acc b => acc * 256 + b) 0

/-! ## SeedManager (`seed_manager.py`)

`get_seed` memoizes in a per-instance cache (a Python dict, modelled as an
association list); the derived value itself is a pure function of the master
seed and the key. -/

/-- The pure seed derivation: the first eight bytes of the SHA-256 digest of
`"{master_seed}:{key}"`, read as a big-endian unsigned integer. -/
def getSeedPure (master : Int) (key : String) : Nat :=
  fromBytesBE ((sha256 (strBytes (toString master ++ ":" ++ key))).take 8)

/-- `SeedManager`: a master seed and the memoization cache. -/
structure SeedManager where
  master_seed : Int
  cache : List (String × Nat)
deriving Repr

/-- `SeedManager.__init__`. -/
def SeedManager.new (master : Int) : SeedManager := ⟨master, []⟩

/-- `SeedManager.get_seed`: cached lookup, else hash-derive and memoize. -/
def SeedManager.get_seed (sm : SeedManager) (key : String) : Nat × SeedManager :=
  match sm.cache.lookup key with
  | some v => (v, sm)
  | none =>
      let combined := toString sm.master_seed ++ ":" ++ key
      let hashBytes := sha256 (strBytes combined)
      let seed := fromBytesBE (hashBytes.take 8)
      (seed, ⟨sm.master_seed, (key, seed) :: sm.cache⟩)

/-- `SeedManager.reset`: clear the cache only. -/
def SeedManager.reset (sm : SeedManager) : SeedManager := ⟨sm.master_seed, []⟩

/-- Cache consistency: every memoized entry holds the pure derived value. -/
def SeedManager.consistent (sm : SeedManager) : Prop :=
  ∀ p ∈ sm.cache, p.2 = getSeedPure sm.master_seed p.1

/-- Run a sequence of `get_seed` calls for their cache effect. -/
def SeedManager.runCalls (sm : SeedManager) (keys : List String) : SeedManager :=
  keys.foldl (fun m k => (m.get_seed k).2) sm

theorem SeedManager.consistent_new (master : Int) : (SeedManager.new master).consistent := by
  intro p hp
  simp [SeedManager.new] at hp

theorem List.mem_of_lookup_eq_some' {α β : Type} [BEq α] [LawfulBEq α]
    {l : List (α × β)} {a : α} {b : β} (h : l.lookup a = some b) : (a, b) ∈ l := by
  induction l with
  | nil => simp [List.lookup] at h
  | cons p ps ih =>
      rw [List.lookup] at h
      by_cases hek : a == p.1
      · rw [hek] at h
        simp only [Option.some.injEq] at h
        have hab : (a, b) = p := by
          cases p with
          | mk x y =>
              have : a = x := eq_of_beq hek
              simp_all
        rw [hab]
        exact List.mem_cons_self _ _
      · rw [Bool.of_not_eq_true hek] at h
        exact List.mem_cons_of_mem _ (ih h)

theorem SeedManager.get_seed_fst (sm : SeedManager) (key : String)
    (h : sm.consistent) : (sm.get_seed key).1 = getSeedPure sm.master_seed key := by
  unfold SeedManager.get_seed
  cases hl : sm.cache.lookup key with
  | none => simp [getSeedPure]
  | some v =>
      simp only
      have hmem : (key, v) ∈ sm.cache := List.mem_of_lookup_eq_some' hl
      have := h (key, v) hmem
      simpa using this

theorem SeedManager.get_seed_master (sm : SeedManager) (key : String) :
    (sm.get_seed key).2.master_seed = sm.master_seed := by
  unfold SeedManager.get_seed
  cases sm.cache.lookup key <;> simp

theorem SeedManager.get_seed_consistent (sm : SeedManager) (key : String)
    (h : sm.consistent) : (sm.get_seed key).2.consistent := by
  unfold SeedManager.get_seed
  cases hl : sm.cache.lookup key with
  | none =>
      intro p hp
      simp only [List.mem_cons] at hp
      rcases hp with hp | hp
      · subst hp; simp [getSeedPure]
      · exact h p hp
  | some v => exact h

theorem SeedManager.runCalls_master (sm : SeedManager) (keys : List String) :
    (sm.runCalls keys).master_seed = sm.master_seed := by
  induction keys generalizing sm with
  | nil => rfl
  | cons k ks ih =>
      simp only [SeedManager.runCalls, List.foldl_cons]
      have := ih (sm.get_seed k).2
      simp only [SeedManager.runCalls] at this
      rw [this]
      exact sm.get_seed_master k

theorem SeedManager.runCalls_consistent (sm : SeedManager) (keys : List String)
    (h : sm.consistent) : (sm.runCalls keys).consistent := by
  induction keys generalizing sm with
  | nil => exact h
  | cons k ks ih =>
      simp only [SeedManager.runCalls, List.foldl_cons]
      exact ih _ (sm.get_seed_consistent k h)

/-! ## The random source model (`random.Random`)

Each sampler owns one `random.Random` instance.  An instance is modelled by
its seed and an operation counter (`PyRand`); the value produced by the k-th
operation of a given kind is supplied by a `RandModel`, an arbitrary function
of the seed and the counter.  Every property below is proved for every
`RandModel`, i.e. for every possible stream of raw draws; raw draw values are
rationals standing in for Python floats. -/

/-- One `random.Random` instance: seed plus an operation counter. -/
structure PyRand where
  seed : Option Int
  ops : Nat
deriving Repr, DecidableEq

/-- `random.Random(seed)`. -/
def PyRand.new (s : Option Int) : PyRand := ⟨s, 0⟩

/-- Advance the stream by one operation. -/
def PyRand.next (r : PyRand) : PyRand := ⟨r.seed, r.ops + 1⟩

/-- The value model for the three `random.Random` operations the generation
framework uses: `random()`, `gauss(mu, sigma)` and `randint(a, b)`. -/
structure RandModel where
  randomAt : Option Int → Nat → ℚ
  gaussAt : Option Int → Nat → ℚ → ℚ → ℚ
  randintAt : Option Int → Nat → Int → Int → Int

/-- The documented contract of `random.randint(a, b)`: a result in `[a, b]`
whenever the range is nonempty. -/
def RandModel.RandintSound (M : RandModel) : Prop :=
  ∀ s k a b, a ≤ b → a ≤ M.randintAt s k a b ∧ M.randintAt s k a b ≤ b

/-- A trivial concrete model, used to instantiate witnesses. -/
def unitModel : RandModel :=
  ⟨fun _ _ => 0, fun _ _ mu _ => mu, fun _ _ a _ => a⟩

theorem unitModel_randintSound : RandModel.RandintSound unitModel :=
  fun _ _ a _ h => ⟨le_refl a, h⟩

/-! ## WeightedChoice (`distributions.py`)

`select`/`select_n` call `random.choices(values, weights=..., k=...)`, which
per draw consumes one `random()` value `u`, forms the running cumulative
weights, and picks `values[bisect_right(cum, u * total, 0, n - 1)]`. -/

/-- `itertools.accumulate` of the weights, starting from `acc`. -/
def accumulate (acc : ℚ) : List ℚ → List ℚ
  | [] => []
  | w :: ws => (acc + w) :: accumulate (acc + w) ws

/-- The loop of `bisect.bisect_right(a, x, lo, hi)`, fuel-structured so that
it reduces definitionally; `hi - lo` steps always suffice. -/
def bisectRightAux (a : List ℚ) (x : ℚ) : Nat → Nat → Nat → Nat
  | 0, lo, _ => lo
  | fuel + 1, lo, hi =>
      if lo < hi then
        let mid := (lo + hi) / 2
        if x < a.getD mid 0 then bisectRightAux a x fuel lo mid
        else bisectRightAux a x fuel (mid + 1) hi
      else lo

/-- `bisect.bisect_right(a, x, lo, hi)`. -/
def bisectRight (a : List ℚ) (x : ℚ) (lo hi : Nat) : Nat :=
  bisectRightAux a x (hi - lo) lo hi

theorem bisectRightAux_bounds (a : List ℚ) (x : ℚ) :
    ∀ fuel lo hi, lo ≤ hi →
      lo ≤ bisectRightAux a x fuel lo hi ∧ bisectRightAux a x fuel lo hi ≤ hi := by
  intro fuel
  induction fuel with
  | zero =>
      intro lo hi h2
      exact ⟨le_refl _, h2⟩
  | succ n ih =>
      intro lo hi h2
      rw [bisectRightAux]
      by_cases hlt : lo < hi
      · rw [if_pos hlt]
        by_cases hx : x < a.getD ((lo + hi) / 2) 0
        · rw [if_pos hx]
          have := ih lo ((lo + hi) / 2) (by omega)
          omega
        · rw [if_neg hx]
          have := ih ((lo + hi) / 2 + 1) hi (by omega)
          omega
      · rw [if_neg hlt]
        omega

theorem bisectRight_bounds (a : List ℚ) (x : ℚ) (lo hi : Nat) (h : lo ≤ hi) :
    lo ≤ bisectRight a x lo hi ∧ bisectRight a x lo hi ≤ hi :=
  bisectRightAux_bounds a x (hi - lo) lo hi h

/-- `WeightedChoice`: the values, the weights, and the owned random stream. -/
structure WeightedChoice (T : Type) where
  values : List T
  weights : List ℚ
  rng : PyRand

/-- `WeightedChoice.__init__`: empty, negative-weight and zero-total checks,
in source order. -/
def WeightedChoice.init {T : Type} (choices : List (T × ℚ)) (seed : Option Int) :
    Except String (WeightedChoice T) :=
  if choices.isEmpty then .error "choices cannot be empty"
  else
    let values := choices.map Prod.fst
    let weights := choices.map Prod.snd
    if weights.any (fun w => decide (w < 0)) then .error "weights cannot be negative"
    else if weights.sum = 0 then .error "total weight cannot be zero"
    else .ok ⟨values, weights, PyRand.new seed⟩

/-- The value of the draw that consumes the `k`-th `random()` output of this
instance's stream: `values[bisect_right(cum_weights, u * total, 0, n - 1)]`. -/
def WeightedChoice.valueAt {T : Type} [Inhabited T] (M : RandModel)
    (wc : WeightedChoice T) (k : Nat) : T :=
  let cum := accumulate 0 wc.weights
  let total := cum.getLastD 0
  let hi := wc.values.length - 1
  wc.values.getD (bisectRight cum (M.randomAt wc.rng.seed k * total) 0 hi) default

/-- This instance with its stream advanced by `k` operations. -/
def WeightedChoice.advanceBy {T : Type} (wc : WeightedChoice T) (k : Nat) :
    WeightedChoice T :=
  { wc with rng := ⟨wc.rng.seed, wc.rng.ops + k⟩ }

/-- `WeightedChoice.select`: one weighted draw, consuming one `random()`. -/
def WeightedChoice.select {T : Type} [Inhabited T] (M : RandModel)
    (wc : WeightedChoice T) : T × WeightedChoice T :=
  (wc.valueAt M wc.rng.ops, { wc with rng := wc.rng.next })

/-- `WeightedChoice.select_n`: `random.choices(..., k=n)`, whose `n` draws
consume the next `n` `random()` outputs of the same stream in order. -/
def WeightedChoice.select_n {T : Type} [Inhabited T] (M : RandModel)
    (wc : WeightedChoice T) (n : Nat) : List T × WeightedChoice T :=
  let cum := accumulate 0 wc.weights
  let total := cum.getLastD 0
  let hi := wc.values.length - 1
  ((List.range n).map (fun j =>
      wc.values.getD
        (bisectRight cum (M.randomAt wc.rng.seed (wc.rng.ops + j) * total) 0 hi)
        default),
   { wc with rng := ⟨wc.rng.seed, wc.rng.ops + n⟩ })

/-- The spec-side reading of `select_n`: `n` successive calls to `select()`
on the same instance, threading its stream. -/
def iterateSelect {T : Type} [Inhabited T] (M : RandModel) :
    Nat → WeightedChoice T → List T × WeightedChoice T
  | 0, wc => ([], wc)
  | n + 1, wc =>
      let p := wc.select M
      let q := iterateSelect M n p.2
      (p.1 :: q.1, q.2)

theorem WeightedChoice.valueAt_mk {T : Type} [Inhabited T] (M : RandModel)
    (v : List T) (w : List ℚ) (r : PyRand) (k : Nat) :
    WeightedChoice.valueAt M ⟨v, w, r⟩ k =
      v.getD (bisectRight (accumulate 0 w)
        (M.randomAt r.seed k * (accumulate 0 w).getLastD 0) 0 (v.length - 1)) default := rfl

/-! ## NormalDistribution (`distributions.py`) -/

/-- `NormalDistribution`: mean, standard deviation, optional bounds, and the
owned random stream. -/
structure NormalDistribution where
  mean : ℚ
  std_dev : ℚ
  min_val : Option ℚ
  max_val : Option ℚ
  rng : PyRand

/-- `NormalDistribution.__init__`. -/
def NormalDistribution.init (mean std_dev : ℚ) (min_val max_val : Option ℚ)
    (seed : Option Int) : NormalDistribution :=
  ⟨mean, std_dev, min_val, max_val, PyRand.new seed⟩

/-- `NormalDistribution.sample`: a raw `gauss(mean, std_dev)` draw, raised to
`min_val` if that bound is given, then lowered to `max_val` if that bound is
given — clamping, not rejection-resampling. -/
def NormalDistribution.sample (M : RandModel) (d : NormalDistribution) :
    ℚ × NormalDistribution :=
  let value := M.gaussAt d.rng.seed d.rng.ops d.mean d.std_dev
  let value := match d.min_val with
    | some lo => max value lo
    | none => value
  let value := match d.max_val with
    | some hi => min value hi
    | none => value
  (value, { d with rng := d.rng.next })

/-! ## AgeDistribution (`distributions.py`) -/

/-- The age band table of `AgeDistribution.__init__`, in dict insertion
order: name, band minimum, band maximum, weight. -/
def bandDefinitions (pediatric_weight commercial_weight medicare_weight : ℚ) :
    List (String × Int × Int × ℚ) :=
  [("pediatric", 0, 17, pediatric_weight),
   ("commercial", 18, 64, commercial_weight),
   ("medicare", 65, 100, medicare_weight)]

/-- `AgeDistribution`: bounds, the owned random stream (used by `randint`),
the clipped per-band ranges, and the band `WeightedChoice`. -/
structure AgeDistribution where
  min_age : Int
  max_age : Int
  rng : PyRand
  band_ranges : List (String × Int × Int)
  bands : WeightedChoice String

/-- `AgeDistribution.__init__`: clip each band to `[min_age, max_age]`, keep
the bands whose clipped range is nonempty, fail if none survives, then build
the band `WeightedChoice` from the surviving bands and original weights. -/
def AgeDistribution.init (min_age max_age : Int)
    (commercial_weight medicare_weight pediatric_weight : ℚ)
    (seed : Option Int) : Except String AgeDistribution :=
  let defs := bandDefinitions pediatric_weight commercial_weight medicare_weight
  let valid_bands := defs.filterMap (fun b =>
      if max b.2.1 min_age ≤ min b.2.2.1 max_age then some (b.1, b.2.2.2) else none)
  let ranges := defs.filterMap (fun b =>
      if max b.2.1 min_age ≤ min b.2.2.1 max_age then
        some (b.1, max b.2.1 min_age, min b.2.2.1 max_age)
      else none)
  if valid_bands.isEmpty then
    .error ("No valid age bands for range " ++ toString min_age ++ "-" ++ toString max_age)
  else
    (WeightedChoice.init valid_bands seed).map (fun bands =>
      ⟨min_age, max_age, PyRand.new seed, ranges, bands⟩)

/-- `AgeDistribution.sample`: select a band, then `randint` over its clipped
range.  `none` models the unreachable `KeyError` of a band name missing from
`_band_ranges`. -/
def AgeDistribution.sample (M : RandModel) (d : AgeDistribution) :
    Option (Int × AgeDistribution) :=
  let p := d.bands.select M
  match d.band_ranges.lookup p.1 with
  | none => none
  | some (mn, mx) =>
      some (M.randintAt d.rng.seed d.rng.ops mn mx,
            { d with bands := p.2, rng := d.rng.next })

/-! ## CohortConstraints and CohortProgress (`cohort.py`)

Python dicts preserve insertion order and the order of `dict.items()` feeds
the `WeightedChoice` constructors, so the distributions are modelled as
association lists. -/

/-- Default `gender_distribution`. -/
def defaultGenderDistribution : List (String × ℚ) :=
  [("M", 49/100), ("F", 51/100)]

/-- Default `age_distribution`. -/
def defaultAgeDistribution : List (String × ℚ) :=
  [("0-17", 10/100), ("18-34", 20/100), ("35-54", 35/100),
   ("55-64", 20/100), ("65+", 15/100)]

/-- Default `plan_distribution`. -/
def defaultPlanDistribution : List (String × ℚ) :=
  [("HMO", 35/100), ("PPO", 40/100), ("HDHP", 25/100)]

/-- `CohortConstraints`: the three categorical distributions plus the
optional state distribution. -/
structure CohortConstraints where
  gender_distribution : List (String × ℚ)
  age_distribution : List (String × ℚ)
  plan_distribution : List (String × ℚ)
  state_distribution : Option (List (String × ℚ))

/-- The all-defaults `CohortConstraints()`. -/
def CohortConstraints.default : CohortConstraints :=
  ⟨defaultGenderDistribution, defaultAgeDistribution, defaultPlanDistribution, none⟩

/-- Python `abs` on rationals. -/
def absQ (q : ℚ) : ℚ := if q < 0 then -q else q

/-- `sum(dist.values())`. -/
def distTotal (d : List (String × ℚ)) : ℚ := (d.map Prod.snd).sum

/-- The violation message `f"{name} distribution sums to {total}, should be 1.0"`. -/
def violationMsg (name : String) (total : ℚ) : String :=
  name ++ " distribution sums to " ++ toString total ++ ", should be 1.0"

/-- `CohortConstraints.validate`: one violation per distribution among
gender, age and plan whose total is farther than 0.01 from 1; the state
distribution is not inspected. -/
def CohortConstraints.validate (c : CohortConstraints) : List String :=
  [("gender", c.gender_distribution), ("age", c.age_distribution),
   ("plan", c.plan_distribution)].filterMap
    (fun nd =>
      if 1/100 < absQ (distTotal nd.2 - 1) then some (violationMsg nd.1 (distTotal nd.2))
      else none)

/-- `CohortProgress`: the three counters. -/
structure CohortProgress where
  total : Nat
  completed : Nat
  failed : Nat
deriving Repr, DecidableEq

/-- `CohortProgress.percent_complete`. -/
def CohortProgress.percent_complete (p : CohortProgress) : ℚ :=
  if 0 < p.total then (p.completed : ℚ) / (p.total : ℚ) * 100 else 0

/-- `CohortProgress.is_complete`. -/
def CohortProgress.is_complete (p : CohortProgress) : Bool :=
  p.total ≤ p.completed + p.failed

/-! ## CohortGenerator (`cohort.py`) -/

/-- The keyword arguments the entity factory receives. -/
structure EntityKwargs where
  seed : Nat
  gender : String
  plan_type : String
  min_age : Int
  max_age : Int
deriving Repr, DecidableEq, Inhabited

/-- `CohortGenerator._select_age_band`: the fixed band-label table; an
unknown label raises. -/
def selectAgeBand (age_band : String) : Except String (Int × Int) :=
  if age_band = "0-17" then .ok (0, 17)
  else if age_band = "18-34" then .ok (18, 34)
  else if age_band = "35-54" then .ok (35, 54)
  else if age_band = "55-64" then .ok (55, 64)
  else if age_band = "65+" then .ok (65, 90)
  else .error ("Unknown age band: " ++ age_band)

/-- `seed or 42`: Python `or` replaces both `None` and the falsy `0` by 42. -/
def effectiveSeed : Option Int → Int
  | none => 42
  | some s => if s = 0 then 42 else s

/-- `CohortGenerator`: factory, constraints, seed manager, optional progress
callback, and the two long-lived demographic choices.  The callback may fail
(`Except`), modelling a raising Python callback. -/
structure CohortGenerator (T : Type) where
  entity_factory : EntityKwargs → Except String T
  constraints : CohortConstraints
  seed_manager : SeedManager
  progress_callback : Option (CohortProgress → Except String Unit)
  gender_choice : WeightedChoice String
  plan_choice : WeightedChoice String

/-- The body of `CohortGenerator.__init__` once the master seed is fixed:
eager validation (all violations reported at once), then the gender and plan
`WeightedChoice`s seeded from `get_seed("gender")` and `get_seed("plan")`. -/
def CohortGenerator.initWithMaster {T : Type} (factory : EntityKwargs → Except String T)
    (constraints : Option CohortConstraints) (master : Int)
    (cb : Option (CohortProgress → Except String Unit)) :
    Except String (CohortGenerator T) :=
  let cs := constraints.getD CohortConstraints.default
  let sm0 := SeedManager.new master
  let errors := cs.validate
  if errors.isEmpty then
    let g0 := sm0.get_seed "gender"
    match WeightedChoice.init cs.gender_distribution (some (g0.1 : Int)) with
    | .error e => .error e
    | .ok gc =>
        let p0 := g0.2.get_seed "plan"
        match WeightedChoice.init cs.plan_distribution (some (p0.1 : Int)) with
        | .error e => .error e
        | .ok pc => .ok ⟨factory, cs, p0.2, cb, gc, pc⟩
  else .error ("Invalid constraints: " ++ toString errors)

/-- `CohortGenerator.__init__`: the master seed is `seed or 42`. -/
def CohortGenerator.init {T : Type} (factory : EntityKwargs → Except String T)
    (constraints : Option CohortConstraints) (seed : Option Int)
    (cb : Option (CohortProgress → Except String Unit)) :
    Except String (CohortGenerator T) :=
  CohortGenerator.initWithMaster factory constraints (effectiveSeed seed) cb

/-- The mutable state of one `generate()` run: the three choice streams, the
seed manager, the progress counters, the entities yielded so far, and the
pending uncaught exception, if any. -/
structure GenState (T : Type) where
  gc : WeightedChoice String
  pc : WeightedChoice String
  ac : WeightedChoice String
  sm : SeedManager
  progress : CohortProgress
  items : List T
  abort : Option String

/-- The `try` body of one loop iteration of `generate()`: draw gender, plan
and age band (each stream advances exactly once), map the band label, derive
`entity_{i}`'s seed, call the factory; on success count and yield, on any
failure count it in `failed` and continue. -/
def genTry {T : Type} (M : RandModel) (factory : EntityKwargs → Except String T)
    (i : Nat) (st : GenState T) : GenState T :=
  let g := st.gc.select M
  let p := st.pc.select M
  let a := st.ac.select M
  match selectAgeBand a.1 with
  | .error _ =>
      { st with
          gc := g.2, pc := p.2, ac := a.2,
          progress := { st.progress with failed := st.progress.failed + 1 } }
  | .ok (mn, mx) =>
      let es := st.sm.get_seed ("entity_" ++ toString i)
      match factory ⟨es.1, g.1, p.1, mn, mx⟩ with
      | .error _ =>
          { st with
              gc := g.2, pc := p.2, ac := a.2, sm := es.2,
              progress := { st.progress with failed := st.progress.failed + 1 } }
      | .ok x =>
          { st with
              gc := g.2, pc := p.2, ac := a.2, sm := es.2,
              progress := { st.progress with completed := st.progress.completed + 1 },
              items := st.items ++ [x] }

/-- One full loop iteration: the `try` body, then the progress callback at
each 100-entity boundary.  A raising callback is not caught: it sets the
pending exception, which freezes the rest of the run. -/
def genIter {T : Type} (M : RandModel) (factory : EntityKwargs → Except String T)
    (cb : Option (CohortProgress → Except String Unit))
    (st : GenState T) (i : Nat) : GenState T :=
  if st.abort.isSome then st
  else
    let st1 := genTry M factory i st
    match cb with
    | some f =>
        if (i + 1) % 100 = 0 then
          match f st1.progress with
          | .ok _ => st1
          | .error e => { st1 with abort := some e }
        else st1
    | none => st1

/-- The whole `generate()` loop plus the final progress report. -/
def genRun {T : Type} (M : RandModel) (factory : EntityKwargs → Except String T)
    (cb : Option (CohortProgress → Except String Unit))
    (count : Nat) (st0 : GenState T) : GenState T :=
  let st := (List.range count).foldl (genIter M factory cb) st0
  if st.abort.isSome then st
  else
    match cb with
    | none => st
    | some f =>
        match f st.progress with
        | .ok _ => st
        | .error e => { st with abort := some e }

/-- `CohortGenerator.generate(count)`: build the per-call age-band
`WeightedChoice` from `get_seed("age")` (its constructor may raise, before
any entity is produced), then run the loop.  The result is the yielded
entities, the final progress, and the uncaught callback exception if one
aborted the run. -/
def CohortGenerator.generate {T : Type} (M : RandModel) (g : CohortGenerator T)
    (count : Nat) : Except String (List T × CohortProgress × Option String) :=
  let es := g.seed_manager.get_seed "age"
  match WeightedChoice.init g.constraints.age_distribution (some (es.1 : Int)) with
  | .error e => .error e
  | .ok ac =>
      let st := genRun M g.entity_factory g.progress_callback count
        ⟨g.gender_choice, g.plan_choice, ac, es.2, ⟨count, 0, 0⟩, [], none⟩
      .ok (st.items, st.progress, st.abort)

/-! ## Per-index closed forms of the `generate()` loop

With all three choice streams independent and advancing exactly once per
iteration, and seed derivation pure, what the factory receives at index `i`
is a function of the constructed generator and `i` alone. -/

/-- The keyword arguments the factory receives at loop index `i`: the `i`-th
draw of the gender stream, the `i`-th draw of the plan stream, the band
bounds of the `i`-th draw of the age stream, and `entity_{i}`'s derived
seed.  `error` when the band label is unknown (factory not called). -/
def kwargsAtAux (M : RandModel) (gc pc ac : WeightedChoice String)
    (master : Int) (i : Nat) : Except String EntityKwargs :=
  match selectAgeBand (ac.valueAt M (ac.rng.ops + i)) with
  | .error e => .error e
  | .ok (mn, mx) =>
      .ok ⟨getSeedPure master ("entity_" ++ toString i),
           gc.valueAt M (gc.rng.ops + i), pc.valueAt M (pc.rng.ops + i), mn, mx⟩

/-- The entity yielded at loop index `i`, if any. -/
def outcomeAt {T : Type} (M : RandModel) (factory : EntityKwargs → Except String T)
    (gc pc ac : WeightedChoice String) (master : Int) (i : Nat) : Option T :=
  match kwargsAtAux M gc pc ac master i with
  | .error _ => none
  | .ok kw => (factory kw).toOption

/-- The entities yielded over the first `k` iterations. -/
def succList {T : Type} (M : RandModel) (factory : EntityKwargs → Except String T)
    (gc pc ac : WeightedChoice String) (master : Int) (k : Nat) : List T :=
  (List.range k).filterMap (outcomeAt M factory gc pc ac master)

theorem WeightedChoice.advanceBy_zero {T : Type} (wc : WeightedChoice T) :
    wc.advanceBy 0 = wc := rfl

theorem WeightedChoice.select_advanceBy {T : Type} [Inhabited T] (M : RandModel)
    (wc : WeightedChoice T) (k : Nat) :
    (wc.advanceBy k).select M = (wc.valueAt M (wc.rng.ops + k), wc.advanceBy (k + 1)) := rfl

theorem succList_succ {T : Type} (M : RandModel)
    (factory : EntityKwargs → Except String T) (gc pc ac : WeightedChoice String)
    (master : Int) (k : Nat) :
    succList M factory gc pc ac master (k + 1) =
      succList M factory gc pc ac master k ++
        (outcomeAt M factory gc pc ac master k).toList := by
  simp only [succList, List.range_succ, List.filterMap_append]
  cases h : outcomeAt M factory gc pc ac master k <;> simp [List.filterMap_cons, h]

theorem succList_length_le {T : Type} (M : RandModel)
    (factory : EntityKwargs → Except String T) (gc pc ac : WeightedChoice String)
    (master : Int) (k : Nat) :
    (succList M factory gc pc ac master k).length ≤ k := by
  have h := List.length_filterMap_le (outcomeAt M factory gc pc ac master) (List.range k)
  simpa [succList] using h

/-- Closed form of the `generate()` loop without a progress callback: after
`k` iterations each choice stream has advanced exactly `k` times, the cache
stays consistent, the yields are `succList ... k`, and the counters track
success and failure exactly. -/
theorem genLoop_none_closed {T : Type} (M : RandModel)
    (factory : EntityKwargs → Except String T) (st0 : GenState T)
    (h0 : st0.abort = none) (hsm : st0.sm.consistent) :
    ∀ k : Nat, ∃ sm' : SeedManager,
      sm'.consistent ∧ sm'.master_seed = st0.sm.master_seed ∧
      (List.range k).foldl (genIter M factory none) st0 =
        ⟨st0.gc.advanceBy k, st0.pc.advanceBy k, st0.ac.advanceBy k, sm',
         ⟨st0.progress.total,
          st0.progress.completed +
            (succList M factory st0.gc st0.pc st0.ac st0.sm.master_seed k).length,
          st0.progress.failed +
            (k - (succList M factory st0.gc st0.pc st0.ac st0.sm.master_seed k).length)⟩,
         st0.items ++ succList M factory st0.gc st0.pc st0.ac st0.sm.master_seed k,
         none⟩ := by
  intro k
  induction k with
  | zero =>
      refine ⟨st0.sm, hsm, rfl, ?_⟩
      simp only [List.range_zero, List.foldl_nil, succList, List.filterMap_nil,
        List.length_nil, Nat.add_zero, Nat.sub_zero, List.append_nil,
        WeightedChoice.advanceBy_zero]
      cases st0 with
      | mk gc pc ac sm prog items ab =>
          cases prog
          have hab : ab = none := h0
          subst hab
          rfl
  | succ k ih =>
      obtain ⟨sm', hc, hm, heq⟩ := ih
      have hlen := succList_length_le M factory st0.gc st0.pc st0.ac st0.sm.master_seed k
      rw [List.range_succ, List.foldl_append, heq, List.foldl_cons, List.foldl_nil]
      rw [succList_succ]
      simp only [genIter, Option.isSome_none, Bool.false_eq_true, if_false,
        WeightedChoice.select_advanceBy, genTry]
      cases hband : selectAgeBand (st0.ac.valueAt M (st0.ac.rng.ops + k)) with
      | error e =>
          refine ⟨sm', hc, hm, ?_⟩
          have hout : outcomeAt M factory st0.gc st0.pc st0.ac st0.sm.master_seed k
              = none := by
            simp [outcomeAt, kwargsAtAux, hband]
          simp only [hout, Option.toList_none, List.append_nil, List.length_append,
            List.length_nil, Nat.add_zero]
          simp only [GenState.mk.injEq, CohortProgress.mk.injEq, true_and, and_true]
          omega
      | ok bounds =>
          obtain ⟨mn, mx⟩ := bounds
          simp only
          have hes : (sm'.get_seed ("entity_" ++ toString k)).1 =
              getSeedPure st0.sm.master_seed ("entity_" ++ toString k) := by
            rw [SeedManager.get_seed_fst sm' _ hc, hm]
          rw [hes]
          cases hf : factory ⟨getSeedPure st0.sm.master_seed ("entity_" ++ toString k),
              st0.gc.valueAt M (st0.gc.rng.ops + k),
              st0.pc.valueAt M (st0.pc.rng.ops + k), mn, mx⟩ with
          | error e =>
              refine ⟨(sm'.get_seed ("entity_" ++ toString k)).2,
                SeedManager.get_seed_consistent sm' _ hc,
                (SeedManager.get_seed_master sm' _).trans hm, ?_⟩
              have hout : outcomeAt M factory st0.gc st0.pc st0.ac st0.sm.master_seed k
                  = none := by
                simp [outcomeAt, kwargsAtAux, hband, hf, Except.toOption]
              simp only [hout, Option.toList_none, List.append_nil, List.length_append,
                List.length_nil, Nat.add_zero]
              simp only [GenState.mk.injEq, CohortProgress.mk.injEq, true_and, and_true]
              omega
          | ok x =>
              refine ⟨(sm'.get_seed ("entity_" ++ toString k)).2,
                SeedManager.get_seed_consistent sm' _ hc,
                (SeedManager.get_seed_master sm' _).trans hm, ?_⟩
              have hout : outcomeAt M factory st0.gc st0.pc st0.ac st0.sm.master_seed k
                  = some x := by
                simp [outcomeAt, kwargsAtAux, hband, hf, Except.toOption]
              simp only [hout, Option.toList_some, List.length_append, List.length_cons,
                List.length_nil]
              simp only [GenState.mk.injEq, CohortProgress.mk.injEq, true_and,
                and_true, List.append_assoc]
              try omega

/-- Closed form of a whole `generate()` call without a progress callback. -/
theorem generate_none_closed {T : Type} (M : RandModel) (g : CohortGenerator T)
    (count : Nat) (ac : WeightedChoice String)
    (hcb : g.progress_callback = none)
    (hsm : g.seed_manager.consistent)
    (hac : WeightedChoice.init g.constraints.age_distribution
      (some ((g.seed_manager.get_seed "age").1 : Int)) = .ok ac) :
    g.generate M count = .ok
      (succList M g.entity_factory g.gender_choice g.plan_choice ac
         g.seed_manager.master_seed count,
       ⟨count,
        (succList M g.entity_factory g.gender_choice g.plan_choice ac
           g.seed_manager.master_seed count).length,
        count - (succList M g.entity_factory g.gender_choice g.plan_choice ac
           g.seed_manager.master_seed count).length⟩,
       none) := by
  unfold CohortGenerator.generate
  simp only [hac, hcb]
  have hsm1 : ((g.seed_manager.get_seed "age").2).consistent :=
    SeedManager.get_seed_consistent _ _ hsm
  obtain ⟨sm', hc, hm, heq⟩ := genLoop_none_closed M g.entity_factory
    ⟨g.gender_choice, g.plan_choice, ac, (g.seed_manager.get_seed "age").2,
     ⟨count, 0, 0⟩, [], none⟩ rfl hsm1 count
  simp only at heq
  unfold genRun
  rw [heq]
  simp only [Option.isSome_none, Bool.false_eq_true, if_false,
    SeedManager.get_seed_master, Nat.zero_add, List.nil_append]

/-- Inversion of `CohortGenerator.__init__`: the fields of a successfully
constructed generator. -/
theorem CohortGenerator.init_fields {T : Type} (factory : EntityKwargs → Except String T)
    (cs : Option CohortConstraints) (seed : Option Int)
    (cb : Option (CohortProgress → Except String Unit)) (g : CohortGenerator T)
    (h : CohortGenerator.init factory cs seed cb = .ok g) :
    g.entity_factory = factory ∧ g.progress_callback = cb ∧
    g.constraints = cs.getD CohortConstraints.default ∧
    g.seed_manager.consistent ∧ g.seed_manager.master_seed = effectiveSeed seed := by
  unfold CohortGenerator.init CohortGenerator.initWithMaster at h
  by_cases hv : ((cs.getD CohortConstraints.default).validate).isEmpty
  · rw [if_pos hv] at h
    cases hg : WeightedChoice.init (cs.getD CohortConstraints.default).gender_distribution
        (some (((SeedManager.new (effectiveSeed seed)).get_seed "gender").1 : Int)) with
    | error e =>
        simp only [hg] at h
        exact absurd h (by simp)
    | ok gc =>
        simp only [hg] at h
        cases hp : WeightedChoice.init (cs.getD CohortConstraints.default).plan_distribution
            (some (((((SeedManager.new (effectiveSeed seed)).get_seed "gender").2).get_seed
              "plan").1 : Int)) with
        | error e =>
            simp only [hp] at h
            exact absurd h (by simp)
        | ok pc =>
            simp only [hp] at h
            have hg' : g = ⟨factory, cs.getD CohortConstraints.default,
                ((((SeedManager.new (effectiveSeed seed)).get_seed "gender").2).get_seed
                  "plan").2, cb, gc, pc⟩ := by
              cases h
              rfl
            subst hg'
            refine ⟨rfl, rfl, rfl, ?_, ?_⟩
            · exact SeedManager.get_seed_consistent _ _
                (SeedManager.get_seed_consistent _ _ (SeedManager.consistent_new _))
            · rw [SeedManager.get_seed_master, SeedManager.get_seed_master]
              rfl
  · rw [if_neg hv] at h
    exact absurd h (by simp)

/-! ## The claims -/

/-- C1: for every master seed and key, `SeedManager.get_seed(key)` returns
the big-endian unsigned integer formed from the first eight bytes of the
SHA-256 digest of `"{master_seed}:{key}"`, whatever `get_seed` calls the
instance served before — so the result is identical on repeated calls within
one instance and identical across instances sharing the master seed,
independent of call order. -/
theorem claim_C1_get_seed_hash (master : Int) (calls : List String) (key : String) :
    (((SeedManager.new master).runCalls calls).get_seed key).1 =
      fromBytesBE ((sha256 (strBytes (toString master ++ ":" ++ key))).take 8) := by
  have hc := SeedManager.runCalls_consistent (SeedManager.new master) calls
    (SeedManager.consistent_new master)
  have hm := SeedManager.runCalls_master (SeedManager.new master) calls
  rw [SeedManager.get_seed_fst _ _ hc, hm]
  rfl

/-- A constraints value whose supplied state distribution sums to 1/2. -/
def stateExample : CohortConstraints :=
  { CohortConstraints.default with state_distribution := some [("CA", 1/2)] }

/-- C4 counterexample: a supplied `state_distribution` summing to 1/2 — far
outside the ±0.01 tolerance — produces no violation: `validate()` returns
the empty list, because the code never inspects `state_distribution`. -/
theorem claim_C4_counterexample :
    stateExample.state_distribution = some [("CA", 1/2)] ∧
    1/100 < absQ (distTotal [("CA", (1 : ℚ)/2)] - 1) ∧
    stateExample.validate = [] := by
  refine ⟨rfl, by norm_num [absQ, distTotal], ?_⟩
  norm_num [CohortConstraints.validate, stateExample, CohortConstraints.default,
    distTotal, absQ, defaultGenderDistribution, defaultAgeDistribution,
    defaultPlanDistribution]

/-- C4 (amended): `validate()` returns a violation for each of the gender,
age and plan distributions whose weights do not sum to 1.0 within ±0.01, and
the empty list exactly when those three are within tolerance; the supplied
`state_distribution` is never checked; `validate()` never raises (it is a
total function). -/
theorem claim_C4_validate_three_distributions (c : CohortConstraints) :
    (c.validate = [] ↔
      absQ (distTotal c.gender_distribution - 1) ≤ 1/100 ∧
      absQ (distTotal c.age_distribution - 1) ≤ 1/100 ∧
      absQ (distTotal c.plan_distribution - 1) ≤ 1/100) ∧
    (∀ st, CohortConstraints.validate
        ⟨c.gender_distribution, c.age_distribution, c.plan_distribution, st⟩
        = c.validate) ∧
    (1/100 < absQ (distTotal c.gender_distribution - 1) →
      violationMsg "gender" (distTotal c.gender_distribution) ∈ c.validate) ∧
    (1/100 < absQ (distTotal c.age_distribution - 1) →
      violationMsg "age" (distTotal c.age_distribution) ∈ c.validate) ∧
    (1/100 < absQ (distTotal c.plan_distribution - 1) →
      violationMsg "plan" (distTotal c.plan_distribution) ∈ c.validate) := by
  unfold CohortConstraints.validate
  simp only [List.filterMap_cons, List.filterMap_nil]
  split_ifs with hg ha hp <;> simp_all [not_lt, le_of_lt]

/-- C4 witness: the amended theorem applied to the default constraints. -/
theorem claim_C4_witness :
    CohortConstraints.default.validate = [] :=
  ((claim_C4_validate_three_distributions CohortConstraints.default).1.mpr
    (by norm_num [absQ, distTotal, CohortConstraints.default,
      defaultGenderDistribution, defaultAgeDistribution, defaultPlanDistribution]))

/-- C6: `NormalDistribution.sample()` is the raw Gaussian draw clamped to
whichever bounds are configured — raised to `min_val` when that bound is
given, then lowered to `max_val` when that bound is given, left as the raw
draw where a bound is absent, with no rejection-resampling — so with both
bounds given (and a nonempty range) every returned value lies in
`[min_val, max_val]`. -/
theorem claim_C6_normal_clamps (M : RandModel) (d : NormalDistribution) :
    (∀ lo hi, d.min_val = some lo → d.max_val = some hi →
      (d.sample M).1
        = min (max (M.gaussAt d.rng.seed d.rng.ops d.mean d.std_dev) lo) hi) ∧
    (∀ lo, d.min_val = some lo → d.max_val = none →
      (d.sample M).1 = max (M.gaussAt d.rng.seed d.rng.ops d.mean d.std_dev) lo) ∧
    (∀ hi, d.min_val = none → d.max_val = some hi →
      (d.sample M).1 = min (M.gaussAt d.rng.seed d.rng.ops d.mean d.std_dev) hi) ∧
    (d.min_val = none → d.max_val = none →
      (d.sample M).1 = M.gaussAt d.rng.seed d.rng.ops d.mean d.std_dev) ∧
    (∀ lo hi, d.min_val = some lo → d.max_val = some hi → lo ≤ hi →
      lo ≤ (d.sample M).1 ∧ (d.sample M).1 ≤ hi) := by
  refine ⟨?_, ?_, ?_, ?_, ?_⟩
  · intro lo hi hlo hhi
    simp only [NormalDistribution.sample, hlo, hhi]
  · intro lo hlo hhi
    simp only [NormalDistribution.sample, hlo, hhi]
  · intro hi hlo hhi
    simp only [NormalDistribution.sample, hlo, hhi]
  · intro hlo hhi
    simp only [NormalDistribution.sample, hlo, hhi]
  · intro lo hi hlo hhi hle
    have hs : (d.sample M).1
        = min (max (M.gaussAt d.rng.seed d.rng.ops d.mean d.std_dev) lo) hi := by
      simp only [NormalDistribution.sample, hlo, hhi]
    rw [hs]
    exact ⟨le_min (le_max_right _ _) hle, min_le_right _ _⟩

/-- The clamped normal of the spec's test vector. -/
def normalExample : NormalDistribution :=
  NormalDistribution.init 50 10 (some 40) (some 60) (some 42)

/-- A normal with only the lower bound configured. -/
def normalExampleLo : NormalDistribution :=
  NormalDistribution.init 0 1 (some 0) none (some 7)

/-- C6 witness: the spec's clamped-normal example with both bounds, plus a
min-only-bounded instance of the single-bound configuration. -/
theorem claim_C6_witness :
    normalExample.min_val = some 40 ∧ normalExample.max_val = some 60 ∧
    (40 : ℚ) ≤ 60 ∧
    ((normalExample.sample unitModel).1 =
        min (max (unitModel.gaussAt normalExample.rng.seed normalExample.rng.ops
          normalExample.mean normalExample.std_dev) 40) 60 ∧
      40 ≤ (normalExample.sample unitModel).1 ∧
      (normalExample.sample unitModel).1 ≤ 60) ∧
    normalExampleLo.min_val = some 0 ∧ normalExampleLo.max_val = none ∧
    (normalExampleLo.sample unitModel).1 =
      max (unitModel.gaussAt normalExampleLo.rng.seed normalExampleLo.rng.ops
        normalExampleLo.mean normalExampleLo.std_dev) 0 :=
  ⟨rfl, rfl, by norm_num,
   ⟨(claim_C6_normal_clamps unitModel normalExample).1 40 60 rfl rfl,
    (claim_C6_normal_clamps unitModel normalExample).2.2.2.2 40 60 rfl rfl
      (by norm_num)⟩,
   rfl, rfl,
   (claim_C6_normal_clamps unitModel normalExampleLo).2.1 0 rfl rfl⟩

/-- C7: `WeightedChoice` construction fails exactly when the choice sequence
is empty, or some weight is negative, or the weights sum to exactly zero —
and succeeds otherwise. -/
theorem claim_C7_weighted_init_ok {T : Type} (choices : List (T × ℚ)) (seed : Option Int) :
    (WeightedChoice.init choices seed).isOk = true ↔
      ¬ (choices = [] ∨ (∃ p ∈ choices, p.2 < 0) ∨ (choices.map Prod.snd).sum = 0) := by
  unfold WeightedChoice.init
  by_cases h1 : choices = []
  · subst h1
    simp [Except.isOk, Except.toBool]
  · have h1' : choices.isEmpty = false := by
      simp [List.isEmpty_iff, h1]
    simp only [h1', Bool.false_eq_true, if_false]
    by_cases h2 : ∃ p ∈ choices, p.2 < 0
    · have h2' : (choices.map Prod.snd).any (fun w => decide (w < 0)) = true := by
        obtain ⟨p, hp, hlt⟩ := h2
        simp only [List.any_eq_true, List.mem_map, decide_eq_true_eq]
        exact ⟨p.2, ⟨p, hp, rfl⟩, hlt⟩
      simp [h2', Except.isOk, Except.toBool, h1, h2]
    · have h2' : (choices.map Prod.snd).any (fun w => decide (w < 0)) = false := by
        rw [Bool.eq_false_iff]
        intro hcon
        apply h2
        simp only [List.any_eq_true, List.mem_map, decide_eq_true_eq] at hcon
        obtain ⟨w, ⟨p, hp, hw⟩, hlt⟩ := hcon
        exact ⟨p, hp, by rw [hw]; exact hlt⟩
      simp only [h2', Bool.false_eq_true, if_false]
      by_cases h3 : (choices.map Prod.snd).sum = 0
      · simp [h3, Except.isOk, Except.toBool, h1, h2]
      · simp [h3, Except.isOk, Except.toBool, h1, h2]

/-- C8: for every `WeightedChoice` and every `n`, `select_n(n)` returns
exactly the sequence of `n` successive `select()` calls from the same
internal stream state, including leaving the stream in the same final
state. -/
theorem claim_C8_select_n_refinement {T : Type} [Inhabited T] (M : RandModel)
    (wc : WeightedChoice T) (n : Nat) :
    wc.select_n M n = iterateSelect M n wc := by
  induction n generalizing wc with
  | zero => rfl
  | succ n ih =>
      have h1 := ih ({ wc with rng := ⟨wc.rng.seed, wc.rng.ops + 1⟩ })
      have h2 : iterateSelect M (n + 1) wc
          = ((wc.select M).1 :: (iterateSelect M n (wc.select M).2).1,
             (iterateSelect M n (wc.select M).2).2) := rfl
      rw [h2,
        show (wc.select M).2 = { wc with rng := ⟨wc.rng.seed, wc.rng.ops + 1⟩ } from rfl,
        ← h1]
      unfold WeightedChoice.select_n
      simp only [List.range_succ_eq_map, List.map_cons, List.map_map, Prod.mk.injEq]
      have h3 : wc.rng.ops + (n + 1) = wc.rng.ops + 1 + n := by omega
      simp only [h3]
      simp
      constructor
      · simp [WeightedChoice.select, WeightedChoice.valueAt]
      · intro a _
        have h4 : wc.rng.ops + (a + 1) = wc.rng.ops + 1 + a := by omega
        rw [h4]

theorem validate_default_eq : CohortConstraints.default.validate = [] := by
  norm_num [CohortConstraints.validate, CohortConstraints.default, distTotal, absQ,
    defaultGenderDistribution, defaultAgeDistribution, defaultPlanDistribution]

theorem default_gender_distribution_eq :
    CohortConstraints.default.gender_distribution = defaultGenderDistribution := rfl

theorem default_plan_distribution_eq :
    CohortConstraints.default.plan_distribution = defaultPlanDistribution := rfl

theorem weightedInit_defaultGender (s : Option Int) :
    WeightedChoice.init defaultGenderDistribution s
      = .ok ⟨["M", "F"], [49/100, 51/100], PyRand.new s⟩ := by
  norm_num [WeightedChoice.init, defaultGenderDistribution]

theorem weightedInit_defaultPlan (s : Option Int) :
    WeightedChoice.init defaultPlanDistribution s
      = .ok ⟨["HMO", "PPO", "HDHP"], [35/100, 40/100, 25/100], PyRand.new s⟩ := by
  norm_num [WeightedChoice.init, defaultPlanDistribution]

set_option maxRecDepth 16000 in
/-- C9: constructing a `CohortGenerator` with `seed=0` behaves exactly like
`seed=42` (Python's `seed or 42` treats 0 as falsy), and likewise when the
seed is omitted (`None`); the resulting master seed is 42, which derives
different entity seeds than a `SeedManager` actually seeded with 0 would. -/
theorem claim_C9_zero_seed_fallback {T : Type} (factory : EntityKwargs → Except String T)
    (cs : Option CohortConstraints) (cb : Option (CohortProgress → Except String Unit)) :
    CohortGenerator.init factory cs (some 0) cb
        = CohortGenerator.init factory cs (some 42) cb ∧
    CohortGenerator.init factory cs none cb
        = CohortGenerator.init factory cs (some 42) cb ∧
    (CohortGenerator.init factory none (some 0) cb).map
        (fun g => g.seed_manager.master_seed) = .ok 42 ∧
    getSeedPure 0 "entity_0" ≠ getSeedPure 42 "entity_0" := by
  refine ⟨rfl, rfl, ?_, by decide⟩
  have h3 : CohortGenerator.init factory none (some (0 : Int)) cb
      = CohortGenerator.initWithMaster factory none 42 cb := rfl
  rw [h3]
  unfold CohortGenerator.initWithMaster
  simp only [Option.getD_none, default_gender_distribution_eq, default_plan_distribution_eq,
    validate_default_eq, List.isEmpty_nil, if_true, weightedInit_defaultGender,
    weightedInit_defaultPlan, Except.map]
  rw [SeedManager.get_seed_master, SeedManager.get_seed_master]
  rfl

/-! ## C5 machinery: AgeDistribution invariants -/

/-- `select()` on a nonempty `WeightedChoice` returns one of its values:
`bisect_right(cum, x, 0, n - 1)` always lands in `[0, n - 1]`. -/
theorem WeightedChoice.select_mem {T : Type} [Inhabited T] (M : RandModel)
    (wc : WeightedChoice T) (h : wc.values ≠ []) : (wc.select M).1 ∈ wc.values := by
  have hlen : 0 < wc.values.length := List.length_pos.mpr h
  have hb := bisectRight_bounds (accumulate 0 wc.weights)
    (M.randomAt wc.rng.seed wc.rng.ops * (accumulate 0 wc.weights).getLastD 0)
    0 (wc.values.length - 1) (by omega)
  have hidx : bisectRight (accumulate 0 wc.weights)
      (M.randomAt wc.rng.seed wc.rng.ops * (accumulate 0 wc.weights).getLastD 0)
      0 (wc.values.length - 1) < wc.values.length := by omega
  show wc.values.getD _ default ∈ wc.values
  rw [List.getD_eq_getElem wc.values default hidx]
  exact List.getElem_mem hidx

/-- The invariant of a well-formed `AgeDistribution`: the band choice is
nonempty and every selectable band has a registered clipped range lying
inside `[min_age, max_age]`. -/
def AgeDistribution.WF (d : AgeDistribution) : Prop :=
  d.bands.values ≠ [] ∧
  ∀ name ∈ d.bands.values, ∃ mn mx,
    d.band_ranges.lookup name = some (mn, mx) ∧
    d.min_age ≤ mn ∧ mn ≤ mx ∧ mx ≤ d.max_age

/-- Inversion of a successful `WeightedChoice.__init__`. -/
theorem WeightedChoice.init_fields_of_ok {T : Type} (choices : List (T × ℚ)) (seed : Option Int)
    (wc : WeightedChoice T) (h : WeightedChoice.init choices seed = .ok wc) :
    wc = ⟨choices.map Prod.fst, choices.map Prod.snd, PyRand.new seed⟩ := by
  unfold WeightedChoice.init at h
  by_cases h1 : choices.isEmpty
  · rw [if_pos h1] at h
    exact absurd h (by simp)
  · rw [if_neg h1] at h
    simp only at h
    by_cases h2 : (choices.map Prod.snd).any (fun w => decide (w < 0)) = true
    · rw [if_pos h2] at h
      exact absurd h (by simp)
    · rw [if_neg h2] at h
      by_cases h3 : (choices.map Prod.snd).sum = 0
      · rw [if_pos h3] at h
        exact absurd h (by simp)
      · rw [if_neg h3] at h
        injection h with h
        exact h.symm

/-- Inversion of a successful `AgeDistribution.__init__`. -/
theorem AgeDistribution.init_inversion (mn mx : Int) (cw mw pw : ℚ) (seed : Option Int)
    (d : AgeDistribution) (h : AgeDistribution.init mn mx cw mw pw seed = .ok d) :
    d.min_age = mn ∧ d.max_age = mx ∧
    d.band_ranges = (bandDefinitions pw cw mw).filterMap (fun b =>
      if max b.2.1 mn ≤ min b.2.2.1 mx then
        some (b.1, max b.2.1 mn, min b.2.2.1 mx)
      else none) ∧
    d.bands.values = ((bandDefinitions pw cw mw).filterMap (fun b =>
      if max b.2.1 mn ≤ min b.2.2.1 mx then some (b.1, b.2.2.2) else none)).map
        Prod.fst ∧
    d.bands.values ≠ [] := by
  unfold AgeDistribution.init at h
  by_cases he : ((bandDefinitions pw cw mw).filterMap (fun b =>
      if max b.2.1 mn ≤ min b.2.2.1 mx then some (b.1, b.2.2.2) else none)).isEmpty
  · rw [if_pos he] at h
    exact absurd h (by simp)
  · rw [if_neg he] at h
    cases hw : WeightedChoice.init ((bandDefinitions pw cw mw).filterMap (fun b =>
        if max b.2.1 mn ≤ min b.2.2.1 mx then some (b.1, b.2.2.2) else none)) seed with
    | error e => rw [hw] at h; simp [Except.map] at h
    | ok bands =>
        rw [hw] at h
        simp only [Except.map, Except.ok.injEq] at h
        have hb := WeightedChoice.init_fields_of_ok _ _ _ hw
        subst h
        refine ⟨rfl, rfl, rfl, ?_, ?_⟩
        · rw [hb]
        · rw [hb]
          simp only [ne_eq, List.map_eq_nil_iff]
          intro hcon
          rw [hcon] at he
          exact he rfl

/-- A constructed `AgeDistribution` is well-formed. -/
theorem AgeDistribution.init_wf (mn mx : Int) (cw mw pw : ℚ) (seed : Option Int)
    (d : AgeDistribution) (h : AgeDistribution.init mn mx cw mw pw seed = .ok d) :
    d.WF := by
  obtain ⟨h1, h2, h3, h4, h5⟩ := AgeDistribution.init_inversion mn mx cw mw pw seed d h
  refine ⟨h5, ?_⟩
  intro name hname
  rw [h4] at hname
  rw [h3, h1, h2]
  by_cases c1 : max (0 : Int) mn ≤ min 17 mx <;>
    by_cases c2 : max (18 : Int) mn ≤ min 64 mx <;>
      by_cases c3 : max (65 : Int) mn ≤ min 100 mx <;>
        simp only [bandDefinitions, List.filterMap_cons, List.filterMap_nil, c1, c2, c3,
          if_true, if_false, List.map_cons, List.map_nil, List.mem_cons,
          List.not_mem_nil, or_false] at hname <;>
        first
          | (rcases hname with rfl | rfl | rfl <;>
              (simp only [bandDefinitions, List.filterMap_cons, List.filterMap_nil, c1, c2, c3,
                if_true, if_false]
               simp [List.lookup]
               try exact ⟨_, _, ⟨rfl, rfl⟩, by omega, by omega, by omega⟩))
          | (rcases hname with rfl | rfl <;>
              (simp only [bandDefinitions, List.filterMap_cons, List.filterMap_nil, c1, c2, c3,
                if_true, if_false]
               simp [List.lookup]
               try exact ⟨_, _, ⟨rfl, rfl⟩, by omega, by omega, by omega⟩))
          | (rcases hname with rfl <;>
              (simp only [bandDefinitions, List.filterMap_cons, List.filterMap_nil, c1, c2, c3,
                if_true, if_false]
               simp [List.lookup]
               try exact ⟨_, _, ⟨rfl, rfl⟩, by omega, by omega, by omega⟩))
          | (exact hname.elim)

/-- One well-formed `sample()` call: it succeeds, stays in range, and
preserves the invariant and the bounds. -/
theorem AgeDistribution.sample_step (M : RandModel) (hM : M.RandintSound)
    (d : AgeDistribution) (hwf : d.WF) :
    ∃ a d', d.sample M = some (a, d') ∧ d.min_age ≤ a ∧ a ≤ d.max_age ∧
      d'.WF ∧ d'.min_age = d.min_age ∧ d'.max_age = d.max_age := by
  obtain ⟨hne, hall⟩ := hwf
  obtain ⟨mn, mx, hlk, hb1, hb2, hb3⟩ :=
    hall (d.bands.select M).1 (WeightedChoice.select_mem M d.bands hne)
  have hri := hM d.rng.seed d.rng.ops mn mx hb2
  unfold AgeDistribution.sample
  simp only [hlk]
  refine ⟨_, _, rfl, le_trans hb1 hri.1, le_trans hri.2 hb3, ⟨hne, hall⟩, rfl, rfl⟩

/-- `n` successive `sample()` calls all succeed with results in `[lo, hi]`. -/
def iterSampleOk (M : RandModel) (lo hi : Int) : Nat → AgeDistribution → Prop
  | 0, _ => True
  | n + 1, d => ∃ a d', d.sample M = some (a, d') ∧ lo ≤ a ∧ a ≤ hi ∧
      iterSampleOk M lo hi n d'

theorem iterSampleOk_of_wf (M : RandModel) (hM : M.RandintSound) (n : Nat) :
    ∀ d : AgeDistribution, d.WF → iterSampleOk M d.min_age d.max_age n d := by
  induction n with
  | zero => intro d _; trivial
  | succ n ih =>
      intro d hwf
      obtain ⟨a, d', hs, h1, h2, hwf', hmn, hmx⟩ := AgeDistribution.sample_step M hM d hwf
      have := ih d' hwf'
      rw [hmn, hmx] at this
      exact ⟨a, d', hs, h1, h2, this⟩

/-- C5: with the default band weights, `AgeDistribution` construction fails
exactly when clipping to `[min_age, max_age]` drops all three bands (each
band is dropped exactly when its clipped range is empty, i.e.
`effective_min > effective_max`); on success, `_band_ranges` holds exactly
the surviving clipped bands, and every `sample()` call — now and after any
number of further calls — returns an integer in `[min_age, max_age]`. -/
theorem claim_C5_age_bounds (M : RandModel) (hM : M.RandintSound)
    (mn mx : Int) (seed : Option Int) :
    ((AgeDistribution.init mn mx (7/10) (2/10) (1/10) seed).isOk = true ↔
      ¬ (min 17 mx < max 0 mn ∧ min 64 mx < max 18 mn ∧ min 100 mx < max 65 mn)) ∧
    ∀ d, AgeDistribution.init mn mx (7/10) (2/10) (1/10) seed = .ok d →
      d.band_ranges = (bandDefinitions (1/10) (7/10) (2/10)).filterMap (fun b =>
        if max b.2.1 mn ≤ min b.2.2.1 mx then
          some (b.1, max b.2.1 mn, min b.2.2.1 mx)
        else none) ∧
      ∀ n, iterSampleOk M mn mx n d := by
  constructor
  · unfold AgeDistribution.init
    by_cases c1 : max (0 : Int) mn ≤ min 17 mx <;>
      by_cases c2 : max (18 : Int) mn ≤ min 64 mx <;>
        by_cases c3 : max (65 : Int) mn ≤ min 100 mx <;>
          (simp only [bandDefinitions, List.filterMap_cons, List.filterMap_nil, c1, c2, c3,
            if_true, if_false]
           norm_num [WeightedChoice.init, Except.isOk, Except.toBool, Except.map]
           omega)
  · intro d hd
    obtain ⟨h1, h2, h3, h4, h5⟩ :=
      AgeDistribution.init_inversion mn mx (7/10) (2/10) (1/10) seed d hd
    refine ⟨h3, ?_⟩
    intro n
    have hwf := AgeDistribution.init_wf mn mx (7/10) (2/10) (1/10) seed d hd
    have hit := iterSampleOk_of_wf M hM n d hwf
    rw [h1, h2] at hit
    exact hit

/-- C5 witness: the spec's `AgeDistribution(min_age=18, max_age=65)` bounds
example, under the trivial random model. -/
theorem claim_C5_witness :
    RandModel.RandintSound unitModel ∧
    (((AgeDistribution.init 18 65 (7/10) (2/10) (1/10) none).isOk = true ↔
      ¬ (min 17 (65 : Int) < max 0 18 ∧ min 64 (65 : Int) < max 18 18 ∧
         min 100 (65 : Int) < max 65 18)) ∧
    ∀ d, AgeDistribution.init 18 65 (7/10) (2/10) (1/10) none = .ok d →
      d.band_ranges = (bandDefinitions (1/10) (7/10) (2/10)).filterMap (fun b =>
        if max b.2.1 18 ≤ min b.2.2.1 65 then
          some (b.1, max b.2.1 18, min b.2.2.1 65)
        else none) ∧
      ∀ n, iterSampleOk unitModel 18 65 n d) :=
  ⟨unitModel_randintSound,
    claim_C5_age_bounds unitModel unitModel_randintSound 18 65 none⟩

/-! ## C2, C3, C10 machinery -/

/-- A factory that records its keyword arguments by yielding them. -/
def recordFactory : EntityKwargs → Except String EntityKwargs := fun kw => .ok kw

theorem outcomeAt_record (M : RandModel) (gc pc ac : WeightedChoice String)
    (master : Int) (i : Nat) :
    outcomeAt M recordFactory gc pc ac master i
      = (kwargsAtAux M gc pc ac master i).toOption := by
  unfold outcomeAt
  cases kwargsAtAux M gc pc ac master i <;> simp [recordFactory, Except.toOption]

theorem succList_record (M : RandModel) (gc pc ac : WeightedChoice String)
    (master : Int) (k : Nat) :
    succList M recordFactory gc pc ac master k
      = (List.range k).filterMap (fun i => (kwargsAtAux M gc pc ac master i).toOption) := by
  unfold succList
  apply List.filterMap_congr
  intro i _
  exact outcomeAt_record M gc pc ac master i

/-- C2: two cohort generators constructed with the same seed and constraints
produce identical `generate(count=50)` runs, and the factory-received
keyword-argument sets are, per index `i`, built from the `i`-th draw of the
gender stream, the `i`-th draw of the plan stream and the band of the `i`-th
draw of the age stream — the three streams advancing once per entity in a
fixed order — plus the derived `entity_{i}` seed. -/
theorem claim_C2_cohort_reproducible {T : Type} (M : RandModel)
    (factory : EntityKwargs → Except String T)
    (cs : Option CohortConstraints) (seed : Option Int)
    (g₁ g₂ : CohortGenerator T) (gr : CohortGenerator EntityKwargs)
    (h₁ : CohortGenerator.init factory cs seed none = .ok g₁)
    (h₂ : CohortGenerator.init factory cs seed none = .ok g₂)
    (hr : CohortGenerator.init recordFactory cs seed none = .ok gr) :
    g₁.generate M 50 = g₂.generate M 50 ∧
    ∀ ac items progress ab,
      WeightedChoice.init gr.constraints.age_distribution
          (some ((gr.seed_manager.get_seed "age").1 : Int)) = .ok ac →
      gr.generate M 50 = .ok (items, progress, ab) →
      items = (List.range 50).filterMap (fun i =>
        (kwargsAtAux M gr.gender_choice gr.plan_choice ac
          gr.seed_manager.master_seed i).toOption) := by
  constructor
  · rw [h₁] at h₂
    injection h₂ with h₂
    rw [h₂]
  · intro ac items progress ab hac hgen
    obtain ⟨hfac, hcb, hcs, hsm, hms⟩ :=
      CohortGenerator.init_fields recordFactory cs seed none gr hr
    have hclosed := generate_none_closed M gr 50 ac hcb hsm hac
    rw [hgen] at hclosed
    injection hclosed with hclosed
    have hitems : items = succList M gr.entity_factory gr.gender_choice
        gr.plan_choice ac gr.seed_manager.master_seed 50 := by
      have := congrArg Prod.fst hclosed
      simpa using this
    rw [hitems, hfac, succList_record]

/-- The small single-valued constraints used by the concrete witnesses. -/
def csW : CohortConstraints :=
  ⟨[("M", 1)], [("0-17", 1)], [("HMO", 1)], none⟩

/-- The seed manager of a generator built on `csW` with master seed 42,
after the two construction-time derivations. -/
def smW : SeedManager :=
  ⟨42, [("plan", getSeedPure 42 "plan"), ("gender", getSeedPure 42 "gender")]⟩

/-- The gender choice of a generator built on `csW` with master seed 42. -/
def gcW : WeightedChoice String :=
  ⟨["M"], [1], PyRand.new (some (getSeedPure 42 "gender" : Int))⟩

/-- The plan choice of a generator built on `csW` with master seed 42. -/
def pcW : WeightedChoice String :=
  ⟨["HMO"], [1], PyRand.new (some (getSeedPure 42 "plan" : Int))⟩

/-- The age choice a `generate()` call builds on `csW` with master seed 42. -/
def acW : WeightedChoice String :=
  ⟨["0-17"], [1], PyRand.new (some (getSeedPure 42 "age" : Int))⟩

theorem csW_validate : csW.validate = [] := by
  norm_num [CohortConstraints.validate, csW, distTotal, absQ]

theorem weightedInit_single (name : String) (s : Option Int) :
    WeightedChoice.init [(name, (1 : ℚ))] s = .ok ⟨[name], [1], PyRand.new s⟩ := by
  norm_num [WeightedChoice.init]

set_option maxRecDepth 100000 in
/-- Constructing on `csW` with seed 42 succeeds, with the literal fields. -/
theorem init_csW_eq {T : Type} (factory : EntityKwargs → Except String T)
    (cb : Option (CohortProgress → Except String Unit)) :
    CohortGenerator.init factory (some csW) (some 42) cb
      = .ok ⟨factory, csW, smW, cb, gcW, pcW⟩ := by
  unfold CohortGenerator.init CohortGenerator.initWithMaster
  have he : effectiveSeed (some 42) = 42 := by norm_num [effectiveSeed]
  rw [he]
  simp only [Option.getD_some]
  have hv : (csW.validate).isEmpty = true := by rw [csW_validate]; rfl
  rw [if_pos hv]
  have hg : csW.gender_distribution = [("M", (1 : ℚ))] := rfl
  have hp : csW.plan_distribution = [("HMO", (1 : ℚ))] := rfl
  rw [hg, hp, weightedInit_single, weightedInit_single]
  rfl

/-- The recording generator on `csW` with seed 42. -/
def gRW : CohortGenerator EntityKwargs :=
  ⟨recordFactory, csW, smW, none, gcW, pcW⟩

/-- C2 witness: the reproducibility statement instantiated at the concrete
recording generator built on `csW` with seed 42. -/
theorem claim_C2_witness :
    CohortGenerator.init recordFactory (some csW) (some 42) none = .ok gRW ∧
    (gRW.generate unitModel 50 = gRW.generate unitModel 50 ∧
     ∀ ac items progress ab,
       WeightedChoice.init gRW.constraints.age_distribution
           (some ((gRW.seed_manager.get_seed "age").1 : Int)) = .ok ac →
       gRW.generate unitModel 50 = .ok (items, progress, ab) →
       items = (List.range 50).filterMap (fun i =>
         (kwargsAtAux unitModel gRW.gender_choice gRW.plan_choice ac
           gRW.seed_manager.master_seed i).toOption)) :=
  ⟨init_csW_eq recordFactory none,
   claim_C2_cohort_reproducible unitModel recordFactory (some csW) (some 42)
     gRW gRW gRW (init_csW_eq recordFactory none) (init_csW_eq recordFactory none)
     (init_csW_eq recordFactory none)⟩

/-! ## C3: partial failure isolation -/

/-- The number of indices in `[0, count)` at which the factory itself raises
(the band lookup having succeeded). -/
def facFailCount {T : Type} (M : RandModel) (factory : EntityKwargs → Except String T)
    (gc pc ac : WeightedChoice String) (master : Int) (count : Nat) : Nat :=
  ((List.range count).filter (fun i =>
    match kwargsAtAux M gc pc ac master i with
    | .error _ => false
    | .ok kw => match factory kw with
      | .error _ => true
      | .ok _ => false)).length

theorem facFailCount_succ {T : Type} (M : RandModel)
    (factory : EntityKwargs → Except String T) (gc pc ac : WeightedChoice String)
    (master : Int) (k : Nat) :
    facFailCount M factory gc pc ac master (k + 1)
      = facFailCount M factory gc pc ac master k +
        (match kwargsAtAux M gc pc ac master k with
         | .error _ => 0
         | .ok kw => (match factory kw with
           | .error _ => 1
           | .ok _ => 0)) := by
  unfold facFailCount
  rw [List.range_succ, List.filter_append, List.length_append]
  cases hk : kwargsAtAux M gc pc ac master k with
  | error e => simp [List.filter, hk]
  | ok kw => cases hf : factory kw <;> simp [List.filter, hk, hf]

/-- When the band lookup succeeds at every index, each iteration either
yields or is a factory failure: the two counts add up to `count`. -/
theorem succList_length_add_facFail {T : Type} (M : RandModel)
    (factory : EntityKwargs → Except String T) (gc pc ac : WeightedChoice String)
    (master : Int) (count : Nat)
    (hband : ∀ i < count, (kwargsAtAux M gc pc ac master i).isOk = true) :
    (succList M factory gc pc ac master count).length
      + facFailCount M factory gc pc ac master count = count := by
  induction count with
  | zero => rfl
  | succ k ih =>
      have hb' : ∀ i < k, (kwargsAtAux M gc pc ac master i).isOk = true :=
        fun i hi => hband i (by omega)
      have hk := hband k (by omega)
      rw [succList_succ, facFailCount_succ, List.length_append]
      cases hkw : kwargsAtAux M gc pc ac master k with
      | error e => rw [hkw] at hk; simp [Except.isOk, Except.toBool] at hk
      | ok kw =>
          have hout : outcomeAt M factory gc pc ac master k
              = (factory kw).toOption := by
            simp [outcomeAt, hkw]
          have hs := ih hb'
          cases hf : factory kw with
          | error e =>
              rw [hout]
              simp only [hf, Except.toOption, Option.toList_none, List.length_nil]
              omega
          | ok x =>
              rw [hout]
              simp only [hf, Except.toOption, Option.toList_some, List.length_cons,
                List.length_nil]
              omega

/-- C3: when the band lookup succeeds everywhere and the factory raises on
exactly one of the `count` iterations, `generate(count)` still yields
`count - 1` entities, and the final progress is
`completed = count - 1, failed = 1, is_complete = true`; no exception
escapes the run. -/
theorem claim_C3_partial_failure_isolation {T : Type} (M : RandModel)
    (factory : EntityKwargs → Except String T)
    (cs : Option CohortConstraints) (seed : Option Int)
    (g : CohortGenerator T) (ac : WeightedChoice String) (count : Nat)
    (items : List T) (progress : CohortProgress) (ab : Option String)
    (hg : CohortGenerator.init factory cs seed none = .ok g)
    (hac : WeightedChoice.init g.constraints.age_distribution
      (some ((g.seed_manager.get_seed "age").1 : Int)) = .ok ac)
    (hband : ∀ i < count, (kwargsAtAux M g.gender_choice g.plan_choice ac
      g.seed_manager.master_seed i).isOk = true)
    (hone : facFailCount M factory g.gender_choice g.plan_choice ac
      g.seed_manager.master_seed count = 1)
    (hgen : g.generate M count = .ok (items, progress, ab)) :
    items.length = count - 1 ∧ progress = ⟨count, count - 1, 1⟩ ∧
    progress.is_complete = true ∧ ab = none := by
  obtain ⟨hfac, hcb, hcs, hsm, hms⟩ :=
    CohortGenerator.init_fields factory cs seed none g hg
  have hclosed := generate_none_closed M g count ac hcb hsm hac
  rw [hgen] at hclosed
  injection hclosed with hclosed
  have hsum := succList_length_add_facFail M g.entity_factory g.gender_choice
    g.plan_choice ac g.seed_manager.master_seed count hband
  rw [hfac] at hsum
  rw [hone] at hsum
  have hlen : (succList M g.entity_factory g.gender_choice g.plan_choice ac
      g.seed_manager.master_seed count).length = count - 1 := by
    rw [← hfac] at hsum
    omega
  have hcount : 1 ≤ count := by omega
  have hitems : items = succList M g.entity_factory g.gender_choice
      g.plan_choice ac g.seed_manager.master_seed count := by
    have := congrArg Prod.fst hclosed
    simpa using this
  have hprog : progress = ⟨count,
      (succList M g.entity_factory g.gender_choice g.plan_choice ac
        g.seed_manager.master_seed count).length,
      count - (succList M g.entity_factory g.gender_choice g.plan_choice ac
        g.seed_manager.master_seed count).length⟩ := by
    have := congrArg (fun r => r.2.1) hclosed
    simpa using this
  have hab : ab = none := by
    have := congrArg (fun r => r.2.2) hclosed
    simpa using this
  refine ⟨by rw [hitems, hlen], ?_, ?_, hab⟩
  · rw [hprog, hlen]
    have : count - (count - 1) = 1 := by omega
    rw [this]
  · rw [hprog, hlen]
    simp only [CohortProgress.is_complete, decide_eq_true_eq]
    omega

/-- A factory that raises exactly on the entity whose derived seed is
`entity_1`'s. -/
def failOnEntity1 : EntityKwargs → Except String EntityKwargs :=
  fun kw => if kw.seed = getSeedPure 42 "entity_1" then .error "factory failure"
    else .ok kw

/-- The failing-factory generator on `csW` with seed 42. -/
def gW : CohortGenerator EntityKwargs := ⟨failOnEntity1, csW, smW, none, gcW, pcW⟩

/-- The two entities a 3-entity run of `gW` yields (index 1 fails). -/
def itemsW : List EntityKwargs :=
  [⟨getSeedPure 42 "entity_0", "M", "HMO", 0, 17⟩,
   ⟨getSeedPure 42 "entity_2", "M", "HMO", 0, 17⟩]

set_option maxRecDepth 1000000 in
theorem hacW3 : WeightedChoice.init gW.constraints.age_distribution
    (some ((gW.seed_manager.get_seed "age").1 : Int)) = .ok acW := by
  have h : gW.constraints.age_distribution = [("0-17", (1 : ℚ))] := rfl
  rw [h, weightedInit_single]
  rfl

set_option maxRecDepth 1000000 in
theorem hband3 : ∀ i < 3, (kwargsAtAux unitModel gW.gender_choice gW.plan_choice acW
    gW.seed_manager.master_seed i).isOk = true := by decide

set_option maxRecDepth 1000000 in
theorem hone3 : facFailCount unitModel failOnEntity1 gW.gender_choice gW.plan_choice
    acW gW.seed_manager.master_seed 3 = 1 := by decide

set_option maxRecDepth 1000000 in
theorem genW_eq : gW.generate unitModel 3 = .ok (itemsW, ⟨3, 2, 1⟩, none) := by
  unfold CohortGenerator.generate
  simp only [show gW.constraints.age_distribution = [("0-17", (1 : ℚ))] from rfl,
    weightedInit_single]
  rfl

/-- C3 witness: with `count=3` and a factory raising exactly at index 1, the
run yields 2 entities and ends `completed=2, failed=1, is_complete=True`. -/
theorem claim_C3_witness :
    CohortGenerator.init failOnEntity1 (some csW) (some 42) none = .ok gW ∧
    WeightedChoice.init gW.constraints.age_distribution
        (some ((gW.seed_manager.get_seed "age").1 : Int)) = .ok acW ∧
    (∀ i < 3, (kwargsAtAux unitModel gW.gender_choice gW.plan_choice acW
        gW.seed_manager.master_seed i).isOk = true) ∧
    facFailCount unitModel failOnEntity1 gW.gender_choice gW.plan_choice acW
        gW.seed_manager.master_seed 3 = 1 ∧
    gW.generate unitModel 3 = .ok (itemsW, ⟨3, 2, 1⟩, none) ∧
    (itemsW.length = 3 - 1 ∧ (⟨3, 2, 1⟩ : CohortProgress) = ⟨3, 3 - 1, 1⟩ ∧
      CohortProgress.is_complete ⟨3, 2, 1⟩ = true ∧ (none : Option String) = none) :=
  ⟨init_csW_eq failOnEntity1 none, hacW3, hband3, hone3, genW_eq,
   claim_C3_partial_failure_isolation unitModel failOnEntity1 (some csW) (some 42)
     gW acW 3 itemsW ⟨3, 2, 1⟩ none (init_csW_eq failOnEntity1 none) hacW3 hband3
     hone3 genW_eq⟩

/-! ## C10: a raising progress callback aborts the run -/

/-- Once the pending exception is set, the rest of the loop does nothing. -/
theorem genLoop_frozen {T : Type} (M : RandModel)
    (factory : EntityKwargs → Except String T)
    (cb : Option (CohortProgress → Except String Unit)) (l : List Nat)
    (st : GenState T) (h : st.abort.isSome = true) :
    l.foldl (genIter M factory cb) st = st := by
  induction l with
  | nil => rfl
  | cons i is ih =>
      rw [List.foldl_cons]
      rw [show genIter M factory cb st i = st from by unfold genIter; rw [if_pos h]]
      exact ih

/-- Away from 100-entity boundaries one iteration ignores the callback. -/
theorem genIter_noBoundary {T : Type} (M : RandModel)
    (factory : EntityKwargs → Except String T)
    (f : CohortProgress → Except String Unit) (st : GenState T) (i : Nat)
    (h : (i + 1) % 100 ≠ 0) :
    genIter M factory (some f) st i = genIter M factory none st i := by
  unfold genIter
  by_cases ha : st.abort.isSome = true
  · rw [if_pos ha, if_pos ha]
  · rw [if_neg ha, if_neg ha]
    simp only [if_neg h]

/-- A boundary-free stretch of the loop ignores the callback. -/
theorem genLoop_noBoundary {T : Type} (M : RandModel)
    (factory : EntityKwargs → Except String T)
    (f : CohortProgress → Except String Unit) (l : List Nat)
    (h : ∀ i ∈ l, (i + 1) % 100 ≠ 0) (st : GenState T) :
    l.foldl (genIter M factory (some f)) st = l.foldl (genIter M factory none) st := by
  induction l generalizing st with
  | nil => rfl
  | cons i is ih =>
      rw [List.foldl_cons, List.foldl_cons,
        genIter_noBoundary M factory f st i (h i (by simp))]
      exact ih (fun j hj => h j (by simp [hj])) _

set_option maxRecDepth 1000000 in
/-- C10: when the progress callback always raises, the exception escapes
`generate()` uncaught (it is the run's abort value), the run stops at the
first invocation point — after `min count 100` iterations — and the `failed`
counter still counts only per-entity failures over the processed prefix, not
the callback's exception. -/
theorem claim_C10_callback_exception_propagates {T : Type} (M : RandModel)
    (factory : EntityKwargs → Except String T)
    (cs : Option CohortConstraints) (seed : Option Int) (err : String)
    (g : CohortGenerator T) (ac : WeightedChoice String) (count : Nat)
    (r : List T × CohortProgress × Option String)
    (hg : CohortGenerator.init factory cs seed
      (some (fun _ => Except.error err)) = .ok g)
    (hac : WeightedChoice.init g.constraints.age_distribution
      (some ((g.seed_manager.get_seed "age").1 : Int)) = .ok ac)
    (hgen : g.generate M count = .ok r) :
    r.2.2 = some err ∧
    r.1 = succList M g.entity_factory g.gender_choice g.plan_choice ac
      g.seed_manager.master_seed (min count 100) ∧
    r.2.1 = ⟨count,
      (succList M g.entity_factory g.gender_choice g.plan_choice ac
        g.seed_manager.master_seed (min count 100)).length,
      min count 100 - (succList M g.entity_factory g.gender_choice g.plan_choice ac
        g.seed_manager.master_seed (min count 100)).length⟩ := by
  obtain ⟨hfac, hcb, hcs, hsm, hms⟩ :=
    CohortGenerator.init_fields factory cs seed (some (fun _ => Except.error err)) g hg
  unfold CohortGenerator.generate at hgen
  simp only [hac, hcb] at hgen
  have hsm1 : ((g.seed_manager.get_seed "age").2).consistent :=
    SeedManager.get_seed_consistent _ _ hsm
  rcases Nat.lt_or_ge count 100 with hcnt | hcnt
  · have hmin : min count 100 = count := by omega
    have hnb : ∀ i ∈ List.range count, (i + 1) % 100 ≠ 0 := by
      intro i hi
      rw [List.mem_range] at hi
      omega
    obtain ⟨sm', hc', hm', heq⟩ := genLoop_none_closed M g.entity_factory
      ⟨g.gender_choice, g.plan_choice, ac, (g.seed_manager.get_seed "age").2,
       ⟨count, 0, 0⟩, [], none⟩ rfl hsm1 count
    simp only at heq
    unfold genRun at hgen
    rw [genLoop_noBoundary M g.entity_factory _ (List.range count) hnb, heq] at hgen
    have hr : r = (succList M g.entity_factory g.gender_choice g.plan_choice ac
        ((g.seed_manager.get_seed "age").2.master_seed) count,
      ⟨count,
       (succList M g.entity_factory g.gender_choice g.plan_choice ac
         ((g.seed_manager.get_seed "age").2.master_seed) count).length,
       count - (succList M g.entity_factory g.gender_choice g.plan_choice ac
         ((g.seed_manager.get_seed "age").2.master_seed) count).length⟩,
      some err) := by
      have h2 : (Except.ok
          ([] ++ succList M g.entity_factory g.gender_choice g.plan_choice ac
            ((g.seed_manager.get_seed "age").2.master_seed) count,
           (⟨count,
            0 + (succList M g.entity_factory g.gender_choice g.plan_choice ac
              ((g.seed_manager.get_seed "age").2.master_seed) count).length,
            0 + (count - (succList M g.entity_factory g.gender_choice g.plan_choice ac
              ((g.seed_manager.get_seed "age").2.master_seed) count).length)⟩ :
              CohortProgress),
           some err) : Except String (List T × CohortProgress × Option String))
          = Except.ok r := by
        rw [← hgen]
        rfl
      injection h2 with h2
      rw [← h2]
      simp [Nat.zero_add, List.nil_append]
    rw [hr, SeedManager.get_seed_master, hmin]
    exact ⟨rfl, rfl, rfl⟩
  · have hmin : min count 100 = 100 := by omega
    have hnb99 : ∀ i ∈ List.range 99, (i + 1) % 100 ≠ 0 := by
      intro i hi
      rw [List.mem_range] at hi
      omega
    obtain ⟨sm99, hc99, hm99, heq99⟩ := genLoop_none_closed M g.entity_factory
      ⟨g.gender_choice, g.plan_choice, ac, (g.seed_manager.get_seed "age").2,
       ⟨count, 0, 0⟩, [], none⟩ rfl hsm1 99
    obtain ⟨sm100, hc100, hm100, heq100⟩ := genLoop_none_closed M g.entity_factory
      ⟨g.gender_choice, g.plan_choice, ac, (g.seed_manager.get_seed "age").2,
       ⟨count, 0, 0⟩, [], none⟩ rfl hsm1 100
    simp only at heq99 heq100
    have hsplit : List.range count
        = List.range 100 ++ (List.range (count - 100)).map (fun i => 100 + i) := by
      conv_lhs => rw [show count = 100 + (count - 100) by omega]
      exact List.range_add 100 (count - 100)
    -- the none-loop over the first 100 indices, via its last step
    have hstep : (List.range 100).foldl
        (genIter M g.entity_factory none)
        ⟨g.gender_choice, g.plan_choice, ac, (g.seed_manager.get_seed "age").2,
         ⟨count, 0, 0⟩, [], none⟩
        = genTry M g.entity_factory 99
            ((List.range 99).foldl (genIter M g.entity_factory none)
              ⟨g.gender_choice, g.plan_choice, ac, (g.seed_manager.get_seed "age").2,
               ⟨count, 0, 0⟩, [], none⟩) := by
      rw [show (100 : Nat) = 99 + 1 from rfl, List.range_succ, List.foldl_append,
        List.foldl_cons, List.foldl_nil, heq99]
      rfl
    -- the callback-loop over the first 100 indices aborts at index 99
    have h100 : (List.range 100).foldl
        (genIter M g.entity_factory (some (fun _ => Except.error err)))
        ⟨g.gender_choice, g.plan_choice, ac, (g.seed_manager.get_seed "age").2,
         ⟨count, 0, 0⟩, [], none⟩
        = { (List.range 100).foldl (genIter M g.entity_factory none)
              ⟨g.gender_choice, g.plan_choice, ac, (g.seed_manager.get_seed "age").2,
               ⟨count, 0, 0⟩, [], none⟩ with
            abort := some err } := by
      rw [hstep, heq99]
      rw [show (100 : Nat) = 99 + 1 from rfl, List.range_succ, List.foldl_append,
        genLoop_noBoundary M g.entity_factory _ (List.range 99) hnb99, heq99,
        List.foldl_cons, List.foldl_nil]
      rfl
    unfold genRun at hgen
    rw [hsplit, List.foldl_append, h100, heq100] at hgen
    rw [genLoop_frozen M g.entity_factory _ _ _ (by rfl)] at hgen
    have hr : r = (succList M g.entity_factory g.gender_choice g.plan_choice ac
        ((g.seed_manager.get_seed "age").2.master_seed) 100,
      ⟨count,
       (succList M g.entity_factory g.gender_choice g.plan_choice ac
         ((g.seed_manager.get_seed "age").2.master_seed) 100).length,
       100 - (succList M g.entity_factory g.gender_choice g.plan_choice ac
         ((g.seed_manager.get_seed "age").2.master_seed) 100).length⟩,
      some err) := by
      have h2 : (Except.ok
          ([] ++ succList M g.entity_factory g.gender_choice g.plan_choice ac
            ((g.seed_manager.get_seed "age").2.master_seed) 100,
           (⟨count,
            0 + (succList M g.entity_factory g.gender_choice g.plan_choice ac
              ((g.seed_manager.get_seed "age").2.master_seed) 100).length,
            0 + (100 - (succList M g.entity_factory g.gender_choice g.plan_choice ac
              ((g.seed_manager.get_seed "age").2.master_seed) 100).length)⟩ :
              CohortProgress),
           some err) : Except String (List T × CohortProgress × Option String))
          = Except.ok r := by
        rw [← hgen]
        rfl
      injection h2 with h2
      rw [← h2]
      simp [Nat.zero_add, List.nil_append]
    rw [hr, SeedManager.get_seed_master, hmin]
    exact ⟨rfl, rfl, rfl⟩

/-- The generator on `csW` with seed 42 and an always-raising callback. -/
def gCW : CohortGenerator EntityKwargs :=
  ⟨recordFactory, csW, smW, some (fun _ => Except.error "boom"), gcW, pcW⟩

/-- The three entities a 3-entity run of `gCW` yields before the final
report's exception. -/
def itemsC : List EntityKwargs :=
  [⟨getSeedPure 42 "entity_0", "M", "HMO", 0, 17⟩,
   ⟨getSeedPure 42 "entity_1", "M", "HMO", 0, 17⟩,
   ⟨getSeedPure 42 "entity_2", "M", "HMO", 0, 17⟩]

set_option maxRecDepth 1000000 in
theorem hacC10 : WeightedChoice.init gCW.constraints.age_distribution
    (some ((gCW.seed_manager.get_seed "age").1 : Int)) = .ok acW := by
  have h : gCW.constraints.age_distribution = [("0-17", (1 : ℚ))] := rfl
  rw [h, weightedInit_single]
  rfl

set_option maxRecDepth 1000000 in
theorem genC10_eq : gCW.generate unitModel 3
    = .ok (itemsC, ⟨3, 3, 0⟩, some "boom") := by
  unfold CohortGenerator.generate
  simp only [show gCW.constraints.age_distribution = [("0-17", (1 : ℚ))] from rfl,
    weightedInit_single]
  rfl

/-- C10 witness: with `count=3` and an always-raising callback, the run's
first invocation point is the final report; the exception escapes as the
abort value, all three entities were already yielded, and `failed` is 0. -/
theorem claim_C10_witness :
    CohortGenerator.init recordFactory (some csW) (some 42)
        (some (fun _ => Except.error "boom")) = .ok gCW ∧
    WeightedChoice.init gCW.constraints.age_distribution
        (some ((gCW.seed_manager.get_seed "age").1 : Int)) = .ok acW ∧
    gCW.generate unitModel 3 = .ok (itemsC, ⟨3, 3, 0⟩, some "boom") ∧
    ((itemsC, (⟨3, 3, 0⟩ : CohortProgress), (some "boom" : Option String)).2.2
        = some "boom" ∧
     (itemsC, (⟨3, 3, 0⟩ : CohortProgress), (some "boom" : Option String)).1
        = succList unitModel gCW.entity_factory gCW.gender_choice gCW.plan_choice
            acW gCW.seed_manager.master_seed (min 3 100) ∧
     (itemsC, (⟨3, 3, 0⟩ : CohortProgress), (some "boom" : Option String)).2.1
        = ⟨3,
           (succList unitModel gCW.entity_factory gCW.gender_choice gCW.plan_choice
             acW gCW.seed_manager.master_seed (min 3 100)).length,
           min 3 100 - (succList unitModel gCW.entity_factory gCW.gender_choice
             gCW.plan_choice acW gCW.seed_manager.master_seed (min 3 100)).length⟩) :=
  ⟨init_csW_eq recordFactory (some (fun _ => Except.error "boom")), hacC10, genC10_eq,
   claim_C10_callback_exception_propagates unitModel recordFactory (some csW)
     (some 42) "boom" gCW acW 3 (itemsC, ⟨3, 3, 0⟩, some "boom")
     (init_csW_eq recordFactory (some (fun _ => Except.error "boom"))) hacC10
     genC10_eq⟩

end MemberSim
